import Mathlib

/-!
Shallow embedding of the fact-check orchestrator in `app/agent.py`
(repository `fact_check_agent`), together with models of the tool
wrappers (`web_search` / `news_search` in `app/agent.py`) feeding it.

Conventions of the embedding:

* Python strings are Lean `String`s; `str.upper()` is modelled by
  mapping `Char.toUpper` over the characters (faithful on ASCII input,
  which is all the orchestrator's markers use).
* The substring test `needle in hay` of Python is `containsSub`.
* The result of `agent_executor.invoke` (a LangChain object, external
  to the repository) is modelled by its two fields the code reads:
  the `output` string and the list of `intermediate_steps`.  Each
  intermediate step carries the tool name string (`action.tool`) and
  its observation.  The code only ever feeds the observation to
  `json.loads(...)` followed by `.get("results", [])` inside a
  `try/except: pass`; the observation is therefore modelled by the
  outcome of that parse: `Obs.unparsed` when `json.loads` raises (or
  the parsed value has no `results` list), and `Obs.parsed rs` when it
  yields a `results` list `rs`.
* A raw result item is either a JSON dict (of which the code reads the
  string fields `title` and `url`, each possibly absent) or some other
  JSON value (skipped by the `isinstance(result, dict)` guard).
* Python exceptions are modelled with `Except`: the two `ValueError`s
  raised by `run_fact_check_agent` become `Except.error` with the same
  message.
-/

namespace FactCheck

/-- `isPre n h` holds when the list `n` is a prefix of `h`
(character-level building block for Python's `in` on strings). -/
def isPre : List Char → List Char → Bool
  | [], _ => true
  | _ :: _, [] => false
  | a :: as, b :: bs => a == b && isPre as bs

/-- `listContainsSub n h`: the list `n` occurs contiguously inside `h`. -/
def listContainsSub (n : List Char) (h : List Char) : Bool :=
  match h with
  | [] => n.isEmpty
  | _ :: t => isPre n h || listContainsSub n t

/-- Python's `needle in hay` on strings. -/
def containsSub (needle hay : String) : Bool :=
  listContainsSub needle.data hay.data

/-- Python's `str.upper()` (ASCII-faithful model). -/
def pyUpper (s : String) : String :=
  ⟨s.data.map Char.toUpper⟩

/-- The verdict classification step of `run_fact_check_agent`
(`app/agent.py` lines 271–280): `verdict` starts as `"Uncertain"` and
is overridden by the first matching `VERDICT:` marker found in the
upper-cased output, checking the `LIKELY TRUE` markers first. -/
def classifyVerdict (output : String) : String :=
  if containsSub "VERDICT: LIKELY TRUE" (pyUpper output)
      || containsSub "VERDICT:LIKELY TRUE" (pyUpper output) then "Likely True"
  else if containsSub "VERDICT: LIKELY FALSE" (pyUpper output)
      || containsSub "VERDICT:LIKELY FALSE" (pyUpper output) then "Likely False"
  else if containsSub "VERDICT: UNCERTAIN" (pyUpper output)
      || containsSub "VERDICT:UNCERTAIN" (pyUpper output) then "Uncertain"
  else "Uncertain"

theorem isPre_iff (n h : List Char) : isPre n h = true ↔ ∃ t, h = n ++ t := by
  induction n generalizing h with
  | nil => simp [isPre]
  | cons a as ih =>
    cases h with
    | nil => simp [isPre]
    | cons b bs =>
      simp only [isPre, Bool.and_eq_true, beq_iff_eq, ih, List.cons_append,
        List.cons.injEq]
      constructor
      · rintro ⟨rfl, t, rfl⟩; exact ⟨t, rfl, rfl⟩
      · rintro ⟨t, rfl, rfl⟩; exact ⟨rfl, t, rfl⟩

theorem listContainsSub_iff (n h : List Char) :
    listContainsSub n h = true ↔ ∃ x y, h = x ++ n ++ y := by
  induction h with
  | nil =>
    simp only [listContainsSub, List.isEmpty_iff]
    constructor
    · rintro rfl; exact ⟨[], [], rfl⟩
    · rintro ⟨x, y, hxy⟩
      rcases List.append_eq_nil.mp (List.append_eq_nil.mp hxy.symm).1 with ⟨-, h2⟩
      exact h2
  | cons c t ih =>
    simp only [listContainsSub, Bool.or_eq_true, isPre_iff, ih]
    constructor
    · rintro (⟨y, hy⟩ | ⟨x, y, rfl⟩)
      · exact ⟨[], y, by simp [hy]⟩
      · exact ⟨c :: x, y, rfl⟩
    · rintro ⟨x, y, hxy⟩
      cases x with
      | nil => exact Or.inl ⟨y, by simpa using hxy⟩
      | cons d ds =>
        rw [List.cons_append, List.cons_append] at hxy
        injection hxy with h1 h2
        exact Or.inr ⟨ds, y, h2⟩

/-! ## Data model of the post-processing in `run_fact_check_agent` -/

/-- One raw result item inside a parsed observation's `results` list:
either a JSON dict (the code reads its optional string fields
`title` and `url`) or any non-dict value, which the
`isinstance(result, dict)` guard rejects. -/
inductive RawItem where
  | dict (title : Option String) (url : Option String)
  | other
  deriving DecidableEq, Repr

/-- Outcome of `json.loads(observation)` followed by
`.get("results", [])` inside `try/except: pass`:
`unparsed` when the parse raises (the `except` swallows it and the
previous value of the results variable is kept), `parsed rs` when it
yields the list `rs`. -/
inductive Obs where
  | unparsed
  | parsed (results : List RawItem)
  deriving DecidableEq, Repr

/-- One element of `intermediate_steps`: the tool name of the action
(`action.tool`) and the observation it produced. -/
structure Step where
  tool : String
  obs : Obs
  deriving DecidableEq, Repr

/-- One entry of the `sources` list of the returned dict
(also the shape of `Source` in `app/schemas.py`). -/
structure Source where
  title : String
  url : String
  type : String
  deriving DecidableEq, Repr

/-- The dict returned by `run_fact_check_agent` on success
(the shape of `FactCheckResponse` in `app/schemas.py`). -/
structure FactCheckResponse where
  verdict : String
  explanation : String
  sources : List Source
  tools_used : List String
  deriving DecidableEq, Repr

/-- Python truthiness of `result.get("url")`: the key must be present
and its string value non-empty. -/
def urlTruthy : Option String → Bool
  | none => false
  | some s => !s.isEmpty

/-- The per-item step of the two source-collection loops
(`app/agent.py` lines 284–298): a dict with a truthy `url` contributes
`title = result.get("title", "Untitled")`, `url = result.get("url", "")`
and the category; anything else contributes nothing. -/
def recordOf (category : String) : RawItem → Option Source
  | RawItem.dict title url =>
      if urlTruthy url then
        some { title := title.getD "Untitled", url := url.getD "", type := category }
      else none
  | RawItem.other => none

/-- The mutable state of the scan over `intermediate_steps`
(`app/agent.py` lines 237–259): the two called-flags and the two
results variables, which are *reassigned* (not extended) on every
successfully parsed observation of their tool. -/
structure ScanState where
  webCalled : Bool
  newsCalled : Bool
  webResults : List RawItem
  newsResults : List RawItem
  deriving DecidableEq, Repr

/-- One iteration of the `for action, observation in intermediate_steps`
loop (`app/agent.py` lines 242–259). -/
def scanStep (st : ScanState) (s : Step) : ScanState :=
  if s.tool == "web_search" then
    { st with
      webCalled := true
      webResults := match s.obs with
        | Obs.parsed rs => rs
        | Obs.unparsed => st.webResults }
  else if s.tool == "news_search" then
    { st with
      newsCalled := true
      newsResults := match s.obs with
        | Obs.parsed rs => rs
        | Obs.unparsed => st.newsResults }
  else st

/-- The whole scan, starting from the initial assignments
`web_search_called = False`, `news_search_called = False`,
`web_results = []`, `news_results = []`. -/
def scanSteps (steps : List Step) : ScanState :=
  steps.foldl scanStep ⟨false, false, [], []⟩

/-- `all_sources` (`app/agent.py` lines 282–298): the web-loop records
followed by the news-loop records. -/
def sourcesOf (st : ScanState) : List Source :=
  st.webResults.filterMap (recordOf "web") ++ st.newsResults.filterMap (recordOf "news")

/-- The deduplication loop (`app/agent.py` lines 300–305) rendered with
an explicit accumulator: `seen` models the `seen_urls` set, `acc` the
`unique_sources` list built by `append` (hence reversed at the end). -/
def dedupGo (seen : List String) (acc : List Source) : List Source → List Source
  | [] => acc.reverse
  | s :: rest =>
      if seen.contains s.url then dedupGo seen acc rest
      else dedupGo (s.url :: seen) (s :: acc) rest

/-- `unique_sources` as a function of `all_sources`. -/
def dedupSources (l : List Source) : List Source :=
  dedupGo [] [] l

/-- The `max_iterations` argument given to the `AgentExecutor`
(`app/agent.py` line 227). -/
def maxIterations : Nat := 20

/-- `run_fact_check_agent` (`app/agent.py` lines 231–314) as a function
of the two fields the code reads off the executor result: the `output`
string and the `intermediate_steps` list.  The two `ValueError`s become
`Except.error`; otherwise the verdict, explanation, deduplicated capped
sources and the literal `tools_used` list are returned. -/
def runFactCheck (output : String) (steps : List Step) : Except String FactCheckResponse :=
  if !(scanSteps steps).webCalled then
    Except.error "HARD RULE FAILED: web_search tool must be called."
  else if !(scanSteps steps).newsCalled then
    Except.error "HARD RULE FAILED: news_search tool must be called."
  else
    Except.ok
      { verdict := classifyVerdict output
        explanation := output
        sources := (dedupSources (sourcesOf (scanSteps steps))).take 10
        tools_used := ["web_search", "news_search"] }

/-! ## The tool wrappers `web_search` / `news_search` of `app/agent.py` -/

/-- Outcome of the body of the `try` block of a tool wrapper
(`app/agent.py` lines 104–110 resp. 129–135): `raised msg` when
`asyncio.run(get_mcp_session())` or the `call_tool` round-trip raises
an exception with `str(e) = msg`; `content text` when the MCP result
has non-empty content with first text `text`; `empty` otherwise. -/
inductive ToolCallOutcome where
  | raised (msg : String)
  | content (text : String)
  | empty
  deriving DecidableEq, Repr

/-- A hexadecimal digit (lower case), as emitted by `json.dumps`. -/
def hexDigit (n : Nat) : Char :=
  if n < 10 then Char.ofNat (48 + n) else Char.ofNat (87 + n)

/-- A `\uXXXX` escape for a code unit `n < 0x10000`. -/
def uEscape4 (n : Nat) : List Char :=
  ['\\', 'u', hexDigit (n / 4096 % 16), hexDigit (n / 256 % 16),
    hexDigit (n / 16 % 16), hexDigit (n % 16)]

/-- `json.dumps` escaping of one character of a string value
(default `ensure_ascii=True`): quote and backslash escaped, the
short control escapes, `\uXXXX` for the other controls and all
non-ASCII (surrogate pairs above the BMP), everything else verbatim. -/
def escapeChar (c : Char) : List Char :=
  if c = '"' then ['\\', '"']
  else if c = '\\' then ['\\', '\\']
  else if c = '\n' then ['\\', 'n']
  else if c = '\t' then ['\\', 't']
  else if c = '\r' then ['\\', 'r']
  else if c.toNat = 8 then ['\\', 'b']
  else if c.toNat = 12 then ['\\', 'f']
  else if c.toNat < 32 || c.toNat > 126 then
    if c.toNat ≤ 65535 then uEscape4 c.toNat
    else
      uEscape4 (55296 + (c.toNat - 65536) / 1024) ++
        uEscape4 (56320 + (c.toNat - 65536) % 1024)
  else [c]

/-- `json.dumps` escaping of a whole string value. -/
def jsonEscape (s : String) : String :=
  ⟨(s.data.map escapeChar).flatten⟩

/-- `json.dumps(\x7b"error": str(e), "results": [], "count": 0\x7d)`:
the observation text a tool wrapper returns for a failed call
(`app/agent.py` lines 114–115 and 139–140). -/
def errorObservation (msg : String) : String :=
  "\x7b\"error\": \"" ++ jsonEscape msg ++ "\", \"results\": [], \"count\": 0\x7d"

/-- The `web_search` wrapper (`app/agent.py` lines 93–115) as a
function of the outcome of its MCP round-trip: a total function — the
bare `except Exception` turns every raised exception into a returned
JSON error observation, so nothing propagates to the caller. -/
def webSearchTool (call : String → ToolCallOutcome) (query : String) : String :=
  match call query with
  | ToolCallOutcome.content text => text
  | ToolCallOutcome.empty => errorObservation "No content returned"
  | ToolCallOutcome.raised msg => errorObservation msg

/-- The `news_search` wrapper (`app/agent.py` lines 118–140), with the
same shape as `webSearchTool`. -/
def newsSearchTool (call : String → ToolCallOutcome) (query : String) : String :=
  match call query with
  | ToolCallOutcome.content text => text
  | ToolCallOutcome.empty => errorObservation "No content returned"
  | ToolCallOutcome.raised msg => errorObservation msg

/-! ## Spec-side definitions

These render phrases of the specification (not code of the repository)
so that claims comparing the two can be stated. -/

/-- Rendering of the spec's "begins with a recognized URL scheme"
(§4.4/§3): the common schemes `http`, `https`, `ftp`. -/
def recognizedScheme (s : String) : Bool :=
  isPre "http://".data s.data || isPre "https://".data s.data
    || isPre "ftp://".data s.data

/-- A character needing no `json.dumps` escaping: printable ASCII other
than quote and backslash. -/
def plainChar (c : Char) : Bool :=
  32 ≤ c.toNat && c.toNat ≤ 126 && c != '"' && c != '\\'

/-- A string of plain characters (see `plainChar`). -/
def plainMsg (s : String) : Bool :=
  s.data.all plainChar

/-- The `results` list carried by the *last* step of the given tool
whose observation parsed, `[]` when there is none: the clean
specification of what the scan loop of `run_fact_check_agent` leaves
in `web_results` / `news_results`. -/
def parsedOf (tool : String) (s : Step) : Option (List RawItem) :=
  if s.tool == tool then
    match s.obs with
    | Obs.parsed rs => some rs
    | Obs.unparsed => none
  else none

/-- See `parsedOf`. -/
def lastParsed (tool : String) (steps : List Step) : List RawItem :=
  (steps.reverse.findSome? (parsedOf tool)).getD []

/-! ## Supporting lemmas -/

theorem listContainsSub_mono {p m h : List Char}
    (hc : listContainsSub (p ++ m) h = true) : listContainsSub m h = true := by
  rcases (listContainsSub_iff _ _).mp hc with ⟨x, y, rfl⟩
  exact (listContainsSub_iff _ _).mpr ⟨x ++ p, y, by simp⟩

theorem containsSub_embed (m pre suf : String) :
    containsSub m (pre ++ m ++ suf) = true :=
  (listContainsSub_iff _ _).mpr ⟨pre.data, suf.data, rfl⟩

theorem scanFold_webCalled (l : List Step) (st : ScanState) :
    (l.foldl scanStep st).webCalled
      = (st.webCalled || l.any (fun s => s.tool == "web_search")) := by
  induction l generalizing st with
  | nil => simp
  | cons s t ih =>
    rw [List.foldl_cons, ih, List.any_cons]
    cases h1 : (s.tool == "web_search") with
    | true => simp [scanStep, h1]
    | false =>
      cases h2 : (s.tool == "news_search") with
      | true => simp [scanStep, h1, h2]
      | false => simp [scanStep, h1, h2]

theorem scanFold_newsCalled (l : List Step) (st : ScanState) :
    (l.foldl scanStep st).newsCalled
      = (st.newsCalled || l.any (fun s => s.tool == "news_search")) := by
  induction l generalizing st with
  | nil => simp
  | cons s t ih =>
    rw [List.foldl_cons, ih, List.any_cons]
    cases h1 : (s.tool == "web_search") with
    | true =>
      have h2 : (s.tool == "news_search") = false := by
        rw [beq_iff_eq] at h1
        rw [h1]; rfl
      simp [scanStep, h1, h2]
    | false =>
      cases h2 : (s.tool == "news_search") with
      | true => simp [scanStep, h1, h2]
      | false => simp [scanStep, h1, h2]

theorem scanFold_webResults (l : List Step) (st : ScanState) :
    (l.foldl scanStep st).webResults
      = (l.reverse.findSome? (parsedOf "web_search")).getD st.webResults := by
  induction l using List.reverseRecOn generalizing st with
  | nil => simp
  | append_singleton t x ih =>
    rw [List.foldl_append, List.reverse_append, List.reverse_singleton,
      List.singleton_append, List.foldl_cons, List.foldl_nil, List.findSome?_cons]
    cases h1 : (x.tool == "web_search") with
    | true =>
      cases hobs : x.obs with
      | parsed rs => simp [scanStep, parsedOf, h1, hobs]
      | unparsed => simp [scanStep, parsedOf, h1, hobs, ih]
    | false =>
      have hpo : parsedOf "web_search" x = none := by simp [parsedOf, h1]
      rw [hpo]
      cases h2 : (x.tool == "news_search") with
      | true => simp [scanStep, h1, h2, ih]
      | false => simp [scanStep, h1, h2, ih]

theorem scanFold_newsResults (l : List Step) (st : ScanState) :
    (l.foldl scanStep st).newsResults
      = (l.reverse.findSome? (parsedOf "news_search")).getD st.newsResults := by
  induction l using List.reverseRecOn generalizing st with
  | nil => simp
  | append_singleton t x ih =>
    rw [List.foldl_append, List.reverse_append, List.reverse_singleton,
      List.singleton_append, List.foldl_cons, List.foldl_nil, List.findSome?_cons]
    cases h1 : (x.tool == "web_search") with
    | true =>
      have h2 : (x.tool == "news_search") = false := by
        rw [beq_iff_eq] at h1
        rw [h1]; rfl
      have hpo : parsedOf "news_search" x = none := by simp [parsedOf, h2]
      rw [hpo]
      simp [scanStep, h1, ih]
    | false =>
      cases h2 : (x.tool == "news_search") with
      | true =>
        cases hobs : x.obs with
        | parsed rs => simp [scanStep, parsedOf, h1, h2, hobs]
        | unparsed => simp [scanStep, parsedOf, h1, h2, hobs, ih]
      | false =>
        have hpo : parsedOf "news_search" x = none := by simp [parsedOf, h2]
        rw [hpo]
        simp [scanStep, h1, h2, ih]

/-- Direct-recursion form of the deduplication loop. -/
def dedupF (seen : List String) : List Source → List Source
  | [] => []
  | s :: rest =>
      if seen.contains s.url then dedupF seen rest
      else s :: dedupF (s.url :: seen) rest

theorem dedupGo_eq (seen : List String) (acc : List Source) (l : List Source) :
    dedupGo seen acc l = acc.reverse ++ dedupF seen l := by
  induction l generalizing seen acc with
  | nil => simp [dedupGo, dedupF]
  | cons s rest ih =>
    unfold dedupGo dedupF
    cases h : seen.contains s.url with
    | true => simp [h, ih]
    | false => simp [h, ih]

theorem dedupSources_eq (l : List Source) : dedupSources l = dedupF [] l := by
  unfold dedupSources
  rw [dedupGo_eq]
  rfl

theorem dedupF_sublist (seen : List String) (l : List Source) :
    (dedupF seen l).Sublist l := by
  induction l generalizing seen with
  | nil => simp [dedupF]
  | cons s rest ih =>
    unfold dedupF
    cases h : seen.contains s.url with
    | true => exact (ih seen).cons s
    | false => exact (ih (s.url :: seen)).cons₂ s

theorem mem_dedupF_not_seen {s : Source} {seen : List String} {l : List Source}
    (h : s ∈ dedupF seen l) : seen.contains s.url = false := by
  induction l generalizing seen with
  | nil => simp [dedupF] at h
  | cons x rest ih =>
    unfold dedupF at h
    cases hx : seen.contains x.url with
    | true =>
      rw [hx] at h
      exact ih h
    | false =>
      rw [hx] at h
      simp only [Bool.false_eq_true, if_false, List.mem_cons] at h
      rcases h with rfl | h
      · exact hx
      · have := ih h
        rw [List.contains_cons] at this
        exact (Bool.or_eq_false_iff.mp this).2

theorem dedupF_pairwise (seen : List String) (l : List Source) :
    (dedupF seen l).Pairwise (fun a b => a.url ≠ b.url) := by
  induction l generalizing seen with
  | nil => simp [dedupF]
  | cons x rest ih =>
    unfold dedupF
    cases hx : seen.contains x.url with
    | true => exact ih seen
    | false =>
      simp only [Bool.false_eq_true, if_false]
      refine List.Pairwise.cons ?_ (ih (x.url :: seen))
      intro b hb
      have := mem_dedupF_not_seen hb
      rw [List.contains_cons] at this
      have hne := (Bool.or_eq_false_iff.mp this).1
      rw [beq_eq_false_iff_ne] at hne
      exact fun hurl => hne hurl.symm

theorem mem_dedupF_find {s : Source} {seen : List String} {l : List Source}
    (h : s ∈ dedupF seen l) :
    l.find? (fun t => t.url == s.url) = some s := by
  induction l generalizing seen with
  | nil => simp [dedupF] at h
  | cons x rest ih =>
    unfold dedupF at h
    cases hx : seen.contains x.url with
    | true =>
      rw [hx] at h
      have hs := mem_dedupF_not_seen h
      have hne : (x.url == s.url) = false := by
        rw [beq_eq_false_iff_ne]
        intro heq
        rw [← heq] at hs
        rw [hs] at hx
        exact Bool.false_ne_true hx
      rw [List.find?_cons_of_neg _ (by simp [hne])]
      exact ih h
    | false =>
      rw [hx] at h
      simp only [Bool.false_eq_true, if_false, List.mem_cons] at h
      rcases h with rfl | h
      · exact List.find?_cons_of_pos _ (by simp)
      · have hs := mem_dedupF_not_seen h
        rw [List.contains_cons] at hs
        have hne : (x.url == s.url) = false := by
          have := (Bool.or_eq_false_iff.mp hs).1
          rw [beq_eq_false_iff_ne] at this ⊢
          exact fun heq => this heq.symm
        rw [List.find?_cons_of_neg _ (by simp [hne])]
        exact ih h

theorem escapeChar_plain {c : Char} (h : plainChar c = true) : escapeChar c = [c] := by
  unfold plainChar at h
  simp only [Bool.and_eq_true, bne_iff_ne, decide_eq_true_eq, ne_eq] at h
  obtain ⟨⟨⟨h1, h2⟩, h3⟩, h4⟩ := h
  have hn : c ≠ '\n' := fun hc => by rw [hc] at h1; exact absurd h1 (by decide)
  have ht : c ≠ '\t' := fun hc => by rw [hc] at h1; exact absurd h1 (by decide)
  have hr : c ≠ '\r' := fun hc => by rw [hc] at h1; exact absurd h1 (by decide)
  have h8 : ¬(c.toNat = 8) := by omega
  have h12 : ¬(c.toNat = 12) := by omega
  unfold escapeChar
  rw [if_neg h3, if_neg h4, if_neg hn, if_neg ht, if_neg hr, if_neg h8, if_neg h12,
    if_neg]
  simp only [Bool.or_eq_true, decide_eq_true_eq, not_or, not_lt]
  omega

theorem jsonEscape_plain {s : String} (h : plainMsg s = true) : jsonEscape s = s := by
  unfold plainMsg at h
  unfold jsonEscape
  have key : ∀ l : List Char, l.all plainChar = true → (l.map escapeChar).flatten = l := by
    intro l
    induction l with
    | nil => intro _; rfl
    | cons c t ih =>
      intro hl
      rw [List.all_cons, Bool.and_eq_true] at hl
      rw [List.map_cons, List.flatten_cons, escapeChar_plain hl.1, ih hl.2]
      rfl
  rw [key s.data h]

theorem containsSub_split {m full u : String} (p : List Char)
    (hsplit : full.data = p ++ m.data) (h : containsSub full u = true) :
    containsSub m u = true := by
  unfold containsSub at h ⊢
  rw [hsplit] at h
  exact listContainsSub_mono h

theorem recordOf_url_nonempty {c : String} {item : RawItem} {s : Source}
    (h : recordOf c item = some s) : s.url ≠ "" := by
  cases item with
  | other => exact absurd h (by simp [recordOf])
  | dict t u =>
    cases u with
    | none => exact absurd h (by simp [recordOf, urlTruthy])
    | some v =>
      cases hv : v.isEmpty with
      | true => exact absurd h (by simp [recordOf, urlTruthy, hv])
      | false =>
        simp only [recordOf, urlTruthy, hv, Bool.not_false, if_true,
          Option.some.injEq] at h
        rw [← h]
        intro he
        have hve : v = "" := he
        rw [hve] at hv
        exact absurd hv (by decide)

/-- Inversion principle for a successful `runFactCheck`: both flags
were set and the result is exactly the record the code builds. -/
theorem runFactCheck_ok {output : String} {steps : List Step} {r : FactCheckResponse}
    (h : runFactCheck output steps = Except.ok r) :
    (scanSteps steps).webCalled = true ∧ (scanSteps steps).newsCalled = true
      ∧ r = { verdict := classifyVerdict output
              explanation := output
              sources := (dedupSources (sourcesOf (scanSteps steps))).take 10
              tools_used := ["web_search", "news_search"] } := by
  unfold runFactCheck at h
  cases hw : (scanSteps steps).webCalled with
  | false => rw [hw] at h; exact absurd h (by simp)
  | true =>
    cases hn : (scanSteps steps).newsCalled with
    | false => rw [hw, hn] at h; exact absurd h (by simp)
    | true =>
      rw [hw, hn] at h
      simp only [Bool.not_true, Bool.false_eq_true, if_false, Except.ok.injEq] at h
      exact ⟨rfl, rfl, h.symm⟩

/-! ## Claims -/

/-- C1 counterexample: the final-answer text
`"VERDICT: LIKELY FALSE AND VERDICT: LIKELY TRUE"` contains both the
phrase "likely false" and the phrase "likely true" (case-insensitively),
yet the verdict classification step yields `"Likely True"`, not
`"Likely False"`: the code checks the LIKELY TRUE markers first, so
true wins over false, the opposite precedence of the claim. -/
theorem c1_counterexample :
    containsSub "LIKELY FALSE"
        (pyUpper "VERDICT: LIKELY FALSE AND VERDICT: LIKELY TRUE") = true
      ∧ containsSub "LIKELY TRUE"
        (pyUpper "VERDICT: LIKELY FALSE AND VERDICT: LIKELY TRUE") = true
      ∧ classifyVerdict "VERDICT: LIKELY FALSE AND VERDICT: LIKELY TRUE" = "Likely True"
      ∧ ("Likely True" : String) ≠ "Likely False" :=
  ⟨by decide, by decide, by decide, by decide⟩

/-- C1 (amended): the verdict classification step keys on `VERDICT:`
markers and checks the LIKELY TRUE markers first (true-precedence):
whenever the upper-cased final-answer text contains
`"VERDICT: LIKELY TRUE"`, the verdict is `"Likely True"` — even when
the phrase "likely false" also appears anywhere in the text. -/
theorem c1_true_marker_precedence (output : String)
    (h : containsSub "VERDICT: LIKELY TRUE" (pyUpper output) = true) :
    classifyVerdict output = "Likely True" := by
  unfold classifyVerdict
  rw [h]
  rfl

/-- Witness for `c1_true_marker_precedence` at a concrete text that
also contains "likely false". -/
theorem c1_true_marker_precedence_witness :
    classifyVerdict "VERDICT: LIKELY TRUE, though others say likely false" = "Likely True" :=
  c1_true_marker_precedence "VERDICT: LIKELY TRUE, though others say likely false" (by decide)

/-- C2: every successful `run_fact_check_agent` result implies that the
intermediate steps contain at least one `web_search` call and at least
one `news_search` call, and the returned `tools_used` is exactly
`["web_search", "news_search"]`; the two `ValueError` guards make a run
missing either capability fail instead of succeeding. -/
theorem c2_success_requires_both_tools (output : String) (steps : List Step)
    (r : FactCheckResponse) (h : runFactCheck output steps = Except.ok r) :
    (∃ s ∈ steps, s.tool = "web_search")
      ∧ (∃ s ∈ steps, s.tool = "news_search")
      ∧ r.tools_used = ["web_search", "news_search"] := by
  obtain ⟨hw, hn, rfl⟩ := runFactCheck_ok h
  refine ⟨?_, ?_, rfl⟩
  · unfold scanSteps at hw
    rw [scanFold_webCalled] at hw
    simp only [Bool.false_or] at hw
    rcases List.any_eq_true.mp hw with ⟨s, hs, hp⟩
    exact ⟨s, hs, beq_iff_eq.mp hp⟩
  · unfold scanSteps at hn
    rw [scanFold_newsCalled] at hn
    simp only [Bool.false_or] at hn
    rcases List.any_eq_true.mp hn with ⟨s, hs, hp⟩
    exact ⟨s, hs, beq_iff_eq.mp hp⟩

/-- Witness for `c2_success_requires_both_tools` on a concrete
successful run. -/
theorem c2_success_requires_both_tools_witness :
    (∃ s ∈ [Step.mk "web_search" (Obs.parsed []), Step.mk "news_search" (Obs.parsed [])],
        s.tool = "web_search")
      ∧ (∃ s ∈ [Step.mk "web_search" (Obs.parsed []), Step.mk "news_search" (Obs.parsed [])],
        s.tool = "news_search")
      ∧ (FactCheckResponse.mk "Uncertain" "no evidence" [] ["web_search", "news_search"]).tools_used
        = ["web_search", "news_search"] :=
  c2_success_requires_both_tools "no evidence"
    [Step.mk "web_search" (Obs.parsed []), Step.mk "news_search" (Obs.parsed [])]
    (FactCheckResponse.mk "Uncertain" "no evidence" [] ["web_search", "news_search"]) rfl

/-- C3: the sources of a successful run carry pairwise-distinct URL
strings, number at most 10, and are a stable first-occurrence-wins
deduplication keyed by the exact URL string: the returned sequence is a
subsequence of `all_sources` (so order is preserved), and each returned
record is the *first* record of `all_sources` bearing its URL
(`find?` with exact string equality returns it). -/
theorem c3_sources_dedup_invariant (output : String) (steps : List Step)
    (r : FactCheckResponse) (h : runFactCheck output steps = Except.ok r) :
    r.sources.length ≤ 10
      ∧ r.sources.Pairwise (fun a b => a.url ≠ b.url)
      ∧ r.sources.Sublist (sourcesOf (scanSteps steps))
      ∧ ∀ s ∈ r.sources,
          (sourcesOf (scanSteps steps)).find? (fun t => t.url == s.url) = some s := by
  obtain ⟨hw, hn, rfl⟩ := runFactCheck_ok h
  simp only
  rw [dedupSources_eq]
  refine ⟨List.length_take_le _ _, ?_, ?_, ?_⟩
  · exact (dedupF_pairwise [] _).sublist (List.take_sublist _ _)
  · exact (List.take_sublist _ _).trans (dedupF_sublist [] _)
  · intro s hs
    exact mem_dedupF_find (List.mem_of_mem_take hs)

/-- Witness for `c3_sources_dedup_invariant` on a concrete run with a
duplicate URL across the two categories. -/
theorem c3_sources_dedup_invariant_witness :
    (FactCheckResponse.mk "Uncertain" "x"
      [Source.mk "A" "https://a" "web", Source.mk "B" "https://b" "news"]
      ["web_search", "news_search"]).sources.length ≤ 10
      ∧ (FactCheckResponse.mk "Uncertain" "x"
        [Source.mk "A" "https://a" "web", Source.mk "B" "https://b" "news"]
        ["web_search", "news_search"]).sources.Pairwise (fun a b => a.url ≠ b.url)
      ∧ (FactCheckResponse.mk "Uncertain" "x"
        [Source.mk "A" "https://a" "web", Source.mk "B" "https://b" "news"]
        ["web_search", "news_search"]).sources.Sublist
        (sourcesOf (scanSteps
          [Step.mk "web_search" (Obs.parsed [RawItem.dict (some "A") (some "https://a")]),
           Step.mk "news_search" (Obs.parsed [RawItem.dict (some "A") (some "https://a"),
             RawItem.dict (some "B") (some "https://b")])]))
      ∧ ∀ s ∈ (FactCheckResponse.mk "Uncertain" "x"
          [Source.mk "A" "https://a" "web", Source.mk "B" "https://b" "news"]
          ["web_search", "news_search"]).sources,
          (sourcesOf (scanSteps
            [Step.mk "web_search" (Obs.parsed [RawItem.dict (some "A") (some "https://a")]),
             Step.mk "news_search" (Obs.parsed [RawItem.dict (some "A") (some "https://a"),
               RawItem.dict (some "B") (some "https://b")])])).find?
            (fun t => t.url == s.url) = some s :=
  c3_sources_dedup_invariant "x"
    [Step.mk "web_search" (Obs.parsed [RawItem.dict (some "A") (some "https://a")]),
     Step.mk "news_search" (Obs.parsed [RawItem.dict (some "A") (some "https://a"),
       RawItem.dict (some "B") (some "https://b")])]
    (FactCheckResponse.mk "Uncertain" "x"
      [Source.mk "A" "https://a" "web", Source.mk "B" "https://b" "news"]
      ["web_search", "news_search"]) rfl

/-- C4 counterexample: the free-text observation
`"- Acme Corp Responds (https://example.com/a)"` is not valid JSON, so
`json.loads` raises, the bare `except: pass` swallows it (modelled
`Obs.unparsed`), and the run returns an *empty* sources list — no
record with title "Acme Corp Responds" is ever produced, because the
code has no line-prefixed free-text parser at all. -/
theorem c4_counterexample :
    (runFactCheck "VERDICT: UNCERTAIN"
        [Step.mk "web_search" Obs.unparsed, Step.mk "news_search" (Obs.parsed [])]).map
      FactCheckResponse.sources = Except.ok []
      ∧ Source.mk "Acme Corp Responds" "https://example.com/a" "web"
        ∉ ([] : List Source) :=
  ⟨rfl, by decide⟩

/-- C4 (amended): evidence normalization accepts only structured dict
records (with a truthy `url` field) found in the `results` list of a
JSON-parsed observation; free-text observations — including lines of
the form "- <title> (<url>)" — fail `json.loads`, are swallowed by the
`except: pass`, and contribute no records, so a run whose observations
are all free text returns an empty sources list. -/
theorem c4_only_structured_records (output : String) :
    runFactCheck output
        [Step.mk "web_search" Obs.unparsed, Step.mk "news_search" Obs.unparsed]
      = Except.ok
        { verdict := classifyVerdict output
          explanation := output
          sources := []
          tools_used := ["web_search", "news_search"] } := rfl

/-- C5 counterexample: a run with two `web_search` observations keeps
only the *last* parsed one — the record from the first observation
(title "A", url `https://a`) is absent from the returned sources, so
the sources are not a normalization of *all* observations of the run. -/
theorem c5_counterexample :
    (runFactCheck "x"
        [Step.mk "web_search" (Obs.parsed [RawItem.dict (some "A") (some "https://a")]),
         Step.mk "web_search" (Obs.parsed [RawItem.dict (some "B") (some "https://b")]),
         Step.mk "news_search" (Obs.parsed [])]).map FactCheckResponse.sources
      = Except.ok [Source.mk "B" "https://b" "web"]
      ∧ Source.mk "A" "https://a" "web" ∉ [Source.mk "B" "https://b" "web"] :=
  ⟨rfl, by decide⟩

/-- C5 (amended): the sources of a successful run are obtained by
normalizing only the `results` of the *most recent successfully parsed*
observation of each capability (the loop reassigns `web_results` /
`news_results` on every parsed observation), with all web records
placed before all news records regardless of call order, then
deduplicated and capped at 10. -/
theorem c5_sources_from_last_parsed (output : String) (steps : List Step)
    (r : FactCheckResponse) (h : runFactCheck output steps = Except.ok r) :
    r.sources = (dedupSources
      ((lastParsed "web_search" steps).filterMap (recordOf "web")
        ++ (lastParsed "news_search" steps).filterMap (recordOf "news"))).take 10 := by
  obtain ⟨hw, hn, rfl⟩ := runFactCheck_ok h
  simp only
  unfold sourcesOf lastParsed scanSteps
  rw [scanFold_webResults, scanFold_newsResults]

/-- Witness for `c5_sources_from_last_parsed` on a concrete run with an
interleaved call order (news first). -/
theorem c5_sources_from_last_parsed_witness :
    (FactCheckResponse.mk "Uncertain" "x"
      [Source.mk "B" "https://b" "web", Source.mk "N" "https://n" "news"]
      ["web_search", "news_search"]).sources
      = (dedupSources
        ((lastParsed "web_search"
            [Step.mk "news_search" (Obs.parsed [RawItem.dict (some "N") (some "https://n")]),
             Step.mk "web_search" (Obs.parsed [RawItem.dict (some "B") (some "https://b")])]).filterMap
          (recordOf "web")
          ++ (lastParsed "news_search"
            [Step.mk "news_search" (Obs.parsed [RawItem.dict (some "N") (some "https://n")]),
             Step.mk "web_search" (Obs.parsed [RawItem.dict (some "B") (some "https://b")])]).filterMap
          (recordOf "news"))).take 10 :=
  c5_sources_from_last_parsed "x"
    [Step.mk "news_search" (Obs.parsed [RawItem.dict (some "N") (some "https://n")]),
     Step.mk "web_search" (Obs.parsed [RawItem.dict (some "B") (some "https://b")])]
    (FactCheckResponse.mk "Uncertain" "x"
      [Source.mk "B" "https://b" "web", Source.mk "N" "https://n" "news"]
      ["web_search", "news_search"]) rfl

/-- C6 counterexample: the executor is configured with
`max_iterations = 20`, not 10; and a run that stops at the iteration
limit (LangChain's stop output contains no VERDICT marker) with both
tools already called returns a successful default-Uncertain result —
not a typed policy failure. -/
theorem c6_counterexample :
    maxIterations = 20 ∧ maxIterations ≠ 10
      ∧ runFactCheck "Agent stopped due to iteration limit or time limit."
          [Step.mk "web_search" (Obs.parsed []), Step.mk "news_search" (Obs.parsed [])]
        = Except.ok
          { verdict := "Uncertain"
            explanation := "Agent stopped due to iteration limit or time limit."
            sources := []
            tools_used := ["web_search", "news_search"] } :=
  ⟨rfl, by decide, rfl⟩

/-- C6 (amended): the iteration budget passed to the executor is fixed
at 20; the only typed failure the run produces is the capability-usage
`ValueError` — a run none of whose steps called `web_search` always
fails with the HARD RULE `ValueError` (and symmetrically for
`news_search`), while a budget-exhausted run whose steps did use both
capabilities returns a default-Uncertain success. -/
theorem c6_budget_and_policy_failure (output : String) (steps : List Step)
    (h : steps.all (fun s => !(s.tool == "web_search")) = true) :
    maxIterations = 20
      ∧ runFactCheck output steps
        = Except.error "HARD RULE FAILED: web_search tool must be called." := by
  refine ⟨rfl, ?_⟩
  have hany : steps.any (fun s => s.tool == "web_search") = false := by
    cases hc : steps.any (fun s => s.tool == "web_search") with
    | false => rfl
    | true =>
      rcases List.any_eq_true.mp hc with ⟨s, hs, hp⟩
      rw [List.all_eq_true] at h
      have hcontra := h s hs
      rw [hp] at hcontra
      exact absurd hcontra (by decide)
  have hw : (scanSteps steps).webCalled = false := by
    unfold scanSteps
    rw [scanFold_webCalled, hany]
    rfl
  unfold runFactCheck
  rw [hw]
  rfl

/-- Witness for `c6_budget_and_policy_failure` on the empty step list. -/
theorem c6_budget_and_policy_failure_witness :
    maxIterations = 20
      ∧ runFactCheck "" []
        = Except.error "HARD RULE FAILED: web_search tool must be called." :=
  c6_budget_and_policy_failure "" [] rfl

/-- C7: whenever the underlying MCP round-trip of a tool wrapper raises
(timeout, transport error, ...), both `web_search` and `news_search`
return the JSON error observation built from the error message — the
bare `except Exception` makes the wrapper a total function, so no
exception reaches the reasoning-loop controller — and for a message
with no JSON-escapable characters, the message text occurs verbatim
inside the returned observation. -/
theorem c7_wrappers_never_raise (wcall ncall : String → ToolCallOutcome) (q msg : String)
    (hw : wcall q = ToolCallOutcome.raised msg)
    (hn : ncall q = ToolCallOutcome.raised msg) :
    webSearchTool wcall q = errorObservation msg
      ∧ newsSearchTool ncall q = errorObservation msg
      ∧ (plainMsg msg = true →
          containsSub msg (webSearchTool wcall q) = true
            ∧ containsSub msg (newsSearchTool ncall q) = true) := by
  have h1 : webSearchTool wcall q = errorObservation msg := by
    unfold webSearchTool
    rw [hw]
  have h2 : newsSearchTool ncall q = errorObservation msg := by
    unfold newsSearchTool
    rw [hn]
  refine ⟨h1, h2, fun hpl => ?_⟩
  have hemb : containsSub msg (errorObservation msg) = true := by
    unfold errorObservation
    rw [jsonEscape_plain hpl]
    exact containsSub_embed msg _ _
  constructor
  · rw [h1]; exact hemb
  · rw [h2]; exact hemb

/-- Witness for `c7_wrappers_never_raise` with a concrete timeout
message. -/
theorem c7_wrappers_never_raise_witness :
    webSearchTool (fun _ => ToolCallOutcome.raised "Timed out") "q"
        = errorObservation "Timed out"
      ∧ newsSearchTool (fun _ => ToolCallOutcome.raised "Timed out") "q"
        = errorObservation "Timed out"
      ∧ (plainMsg "Timed out" = true →
          containsSub "Timed out"
              (webSearchTool (fun _ => ToolCallOutcome.raised "Timed out") "q") = true
            ∧ containsSub "Timed out"
              (newsSearchTool (fun _ => ToolCallOutcome.raised "Timed out") "q") = true) :=
  c7_wrappers_never_raise (fun _ => ToolCallOutcome.raised "Timed out")
    (fun _ => ToolCallOutcome.raised "Timed out") "q" "Timed out" rfl rfl

/-- C8 counterexample: a parsed result dict whose `url` value is the
non-URL string `"banana"` passes the truthiness check and reaches the
returned sources unchanged — the code performs no syntactic URL
validation, so a returned `url` need not begin with a recognized URL
scheme. -/
theorem c8_counterexample :
    (runFactCheck "x"
        [Step.mk "web_search" (Obs.parsed [RawItem.dict none (some "banana")]),
         Step.mk "news_search" (Obs.parsed [])]).map FactCheckResponse.sources
      = Except.ok [Source.mk "Untitled" "banana" "web"]
      ∧ recognizedScheme "banana" = false :=
  ⟨rfl, by decide⟩

/-- C8 (amended): every record in the sources of a successful result
has a non-empty `url` (the Python truthiness check on
`result.get("url")` is the only validation performed; no URL-syntax or
scheme check exists). -/
theorem c8_sources_url_nonempty (output : String) (steps : List Step)
    (r : FactCheckResponse) (h : runFactCheck output steps = Except.ok r) :
    ∀ s ∈ r.sources, s.url ≠ "" := by
  obtain ⟨hw, hn, rfl⟩ := runFactCheck_ok h
  intro s hs
  simp only at hs
  rw [dedupSources_eq] at hs
  have hs2 : s ∈ dedupF [] (sourcesOf (scanSteps steps)) := List.mem_of_mem_take hs
  have hs3 : s ∈ sourcesOf (scanSteps steps) := (dedupF_sublist [] _).subset hs2
  unfold sourcesOf at hs3
  rcases List.mem_append.mp hs3 with hmem | hmem <;>
    · rcases List.mem_filterMap.mp hmem with ⟨item, hitem, hrec⟩
      exact recordOf_url_nonempty hrec

/-- Witness for `c8_sources_url_nonempty` on a concrete run and a
concrete returned record. -/
theorem c8_sources_url_nonempty_witness :
    (Source.mk "Untitled" "banana" "web").url ≠ "" :=
  c8_sources_url_nonempty "x"
    [Step.mk "web_search" (Obs.parsed [RawItem.dict none (some "banana")]),
     Step.mk "news_search" (Obs.parsed [])]
    (FactCheckResponse.mk "Uncertain" "x" [Source.mk "Untitled" "banana" "web"]
      ["web_search", "news_search"]) rfl
    (Source.mk "Untitled" "banana" "web") (by decide)

/-- C9: a final-answer text containing neither the phrase
"likely true" nor the phrase "likely false" (case-insensitively, i.e.
neither `"LIKELY TRUE"` nor `"LIKELY FALSE"` occurs in the upper-cased
text) is classified `"Uncertain"` — every `VERDICT:` marker the code
looks for contains one of those phrases, so none can match, and both
the explicit UNCERTAIN branch and the fall-through default yield
`"Uncertain"`. -/
theorem c9_absent_phrases_uncertain (output : String)
    (h1 : containsSub "LIKELY TRUE" (pyUpper output) = false)
    (h2 : containsSub "LIKELY FALSE" (pyUpper output) = false) :
    classifyVerdict output = "Uncertain" := by
  have key : ∀ m full : String, ∀ p : List Char, full.data = p ++ m.data →
      containsSub m (pyUpper output) = false →
      containsSub full (pyUpper output) = false := by
    intro m full p hsplit hm
    cases hc : containsSub full (pyUpper output) with
    | false => rfl
    | true =>
      rw [containsSub_split p hsplit hc] at hm
      exact absurd hm (by decide)
  have m1 := key _ "VERDICT: LIKELY TRUE" "VERDICT: ".data (by decide) h1
  have m2 := key _ "VERDICT:LIKELY TRUE" "VERDICT:".data (by decide) h1
  have m3 := key _ "VERDICT: LIKELY FALSE" "VERDICT: ".data (by decide) h2
  have m4 := key _ "VERDICT:LIKELY FALSE" "VERDICT:".data (by decide) h2
  unfold classifyVerdict
  rw [m1, m2, m3, m4]
  simp only [Bool.or_self, Bool.false_eq_true, if_false]
  split <;> rfl

/-- Witness for `c9_absent_phrases_uncertain` at the spec's example
text. -/
theorem c9_absent_phrases_uncertain_witness :
    classifyVerdict "no evidence either way" = "Uncertain" :=
  c9_absent_phrases_uncertain "no evidence either way" (by decide) (by decide)

/-- C10: a structured result dict contributes a record exactly when its
`url` value is a present, non-empty string; the produced record carries
the dict's `title` when present and `"Untitled"` when absent, and the
`url` value itself; non-dict items contribute nothing. -/
theorem c10_dict_contribution (c : String) (t u : Option String) :
    ((recordOf c (RawItem.dict t u)).isSome ↔ ∃ v, u = some v ∧ v ≠ "")
      ∧ (∀ s : Source, recordOf c (RawItem.dict t u) = some s →
          s.title = (match t with | some w => w | none => "Untitled")
            ∧ s.url = u.getD "" ∧ s.type = c)
      ∧ recordOf c RawItem.other = none := by
  refine ⟨?_, ?_, rfl⟩
  · constructor
    · intro hsome
      cases u with
      | none => simp [recordOf, urlTruthy] at hsome
      | some v =>
        cases hv : v.isEmpty with
        | true => simp [recordOf, urlTruthy, hv] at hsome
        | false =>
          refine ⟨v, rfl, ?_⟩
          intro he
          rw [he] at hv
          exact absurd hv (by decide)
    · rintro ⟨v, rfl, hv⟩
      have hne : v.isEmpty = false := by
        cases hve : v.isEmpty with
        | false => rfl
        | true => exact absurd ((String.isEmpty_iff v).mp hve) hv
      simp [recordOf, urlTruthy, hne]
  · intro s hrec
    cases hu : urlTruthy u with
    | false => rw [recordOf, hu] at hrec; exact absurd hrec (by simp)
    | true =>
      rw [recordOf, hu] at hrec
      simp only [if_true, Option.some.injEq] at hrec
      rw [← hrec]
      refine ⟨?_, rfl, rfl⟩
      cases t with
      | none => rfl
      | some w => rfl

/-- Witness for `c10_dict_contribution`: a title-less dict with URL
`"https://x"` contributes, and its record fields are as stated. -/
theorem c10_dict_contribution_witness :
    (recordOf "web" (RawItem.dict none (some "https://x"))).isSome
      ∧ (Source.mk "Untitled" "https://x" "web").title = "Untitled"
      ∧ (Source.mk "Untitled" "https://x" "web").url = (some "https://x").getD "" :=
  ⟨(c10_dict_contribution "web" none (some "https://x")).1.mpr
      ⟨"https://x", rfl, by decide⟩,
    ((c10_dict_contribution "web" none (some "https://x")).2.1
      (Source.mk "Untitled" "https://x" "web") rfl).1,
    ((c10_dict_contribution "web" none (some "https://x")).2.1
      (Source.mk "Untitled" "https://x" "web") rfl).2.1⟩

end FactCheck
